import Mathlib

/-!
Verification of the sliding-window prefetch core of
`src/image-orientation-labeler/app.py` (OpenPecha OCR-data-preparation-pipeline).

The Python app is shallowly embedded as a state machine:
* `Loader` models the `ImageLoader` QThread (one loop iteration of `run`
  is one atomic `Loader.step`; the cancellation flag is checked between
  items, exactly as in the source).
* `AppState` models the mutable fields of `OrientationLabeler` plus the
  observable UI surface (displayed pixmap, label texts, written output).
  `loaders` keeps the whole history of created loaders, head = `self.loader`;
  this lets us state "at most one loader is running" non-trivially.
* Decoding (`QPixmap(path)` + `scaled`) is abstracted as a pure function
  `decode : String → Option Asset` supplied as a parameter: `none` models a
  null pixmap (corrupt/missing file), `some a` the scaled pixmap.
* `events` is ghost instrumentation recording cache puts, eviction passes and
  progress recomputations, used to reason about the ordering of UI updates.
-/

namespace OrientApp

/-- `PREFETCH_COUNT` from app.py (the window size of one loader job). -/
def PREFETCH_COUNT : Nat := 20

/-- The eviction margin: `cleanup_cache` drops keys `k < current_index - 5`. -/
def EVICT_MARGIN : Nat := 5

/-- A decoded, scaled pixmap, abstracted. -/
abbrev Asset := Nat

/-- Orientation labels chosen by the operator. -/
inductive Orientation where
  | portrait
  | landscape
deriving DecidableEq, Repr

/-- The JSON string value written for an orientation. -/
def Orientation.toStr : Orientation → String
  | .portrait => portraitStr
  | .landscape => landscapeStr
where
  portraitStr : String := "portrait"
  landscapeStr : String := "landscape"

/-- What the image label widget shows: a real pixmap, or a null pixmap
(result of scaling a null `QPixmap`, i.e. a failed decode). -/
inductive DisplayVal where
  | pix (a : Asset)
  | nullPix
deriving DecidableEq, Repr

/-- Loader state machine states (spec section 4.3). A QThread that has been
created and started is `Running`; it leaves `Running` when its `run` method
returns, either after the whole range (`Completed`) or after observing the
cleared `running` flag (`Cancelled`). -/
inductive LoaderStatus where
  | Running
  | Completed
  | Cancelled
deriving DecidableEq, Repr

/-- The `ImageLoader` thread: captured image list, `start_index`, loop
position `next`, the cooperative cancellation flag `running`, and the
thread status. -/
structure Loader where
  images : List String
  start_index : Nat
  next : Nat
  running : Bool
  status : LoaderStatus
deriving DecidableEq, Repr

/-- One-past-the-end of the range the loader processes:
`min(start_index + PREFETCH_COUNT, len(images))`. -/
def Loader.endIndex (l : Loader) : Nat :=
  min (l.start_index + PREFETCH_COUNT) l.images.length

def Loader.isRunning (l : Loader) : Bool := l.status = LoaderStatus.Running

/-- A freshly created and started loader (`ImageLoader(images, folder, i)`
followed by `.start()`). -/
def newLoader (images : List String) (start_index : Nat) : Loader :=
  { images := images, start_index := start_index, next := start_index,
    running := true, status := LoaderStatus.Running }

def noName : String := ""

/-- One iteration of `ImageLoader.run`'s for-loop, atomically: range check
(loop exhaustion → `Completed`), then the `if not self.running: break` check
(→ `Cancelled`), then decode of `images[next]`; on success the scaled pixmap
is emitted (returned as `some (index, asset)`), on a null pixmap nothing is
emitted and the loop continues with the next index. -/
def Loader.step (decode : String → Option Asset) (l : Loader) :
    Loader × Option (Nat × Asset) :=
  if l.status ≠ LoaderStatus.Running then (l, none)
  else if l.endIndex ≤ l.next then ({ l with status := LoaderStatus.Completed }, none)
  else if l.running = false then ({ l with status := LoaderStatus.Cancelled }, none)
  else
    match decode (l.images.getD l.next noName) with
    | some a => ({ l with next := l.next + 1 }, some (l.next, a))
    | none => ({ l with next := l.next + 1 }, none)

/-- `join` (`self.loader.wait()`) called after `stop()` has cleared the flag:
the thread leaves `Running` without publishing anything further (at item
granularity): `Completed` if its range was already exhausted, `Cancelled`
otherwise. On a thread that is not `Running` it is a no-op. -/
def joinLoader (l : Loader) : Loader :=
  if l.status ≠ LoaderStatus.Running then l
  else if l.endIndex ≤ l.next then { l with status := LoaderStatus.Completed }
  else { l with status := LoaderStatus.Cancelled }

/-- Ghost event log entries: a cache put, an eviction pass, a progress-label
recomputation. -/
inductive Event where
  | putEv (i : Nat)
  | evictEv
  | progressEv
deriving DecidableEq, Repr

/-- Python `dict` assignment `d[k] = v` on an insertion-ordered
association list: overwrite in place if the key exists, else append. -/
def dictPut {α β : Type} [BEq α] (d : List (α × β)) (k : α) (v : β) :
    List (α × β) :=
  if d.any (fun p => p.1 == k) then
    d.map (fun p => if p.1 == k then (k, v) else p)
  else d ++ [(k, v)]

def noImagesMsg : String := "No images found in folder"
def allDoneMsg : String := "All done!"
def keysMsg : String := "Press P for Portrait, L for Landscape"
def outputPath : String := "data/orientations.json"

def jsonEmpty : String := "\x7b\x7d"
def jsonHead : String := "\x7b\n"
def jsonSep : String := ",\n"
def jsonTail : String := "\n\x7d"
def quoteS : String := "\""
def colonS : String := ": "
def indentS : String := "  "

/-- One `  "key": "value"` line of the output file. -/
def jsonPair (k v : String) : String :=
  indentS ++ quoteS ++ k ++ quoteS ++ colonS ++ quoteS ++ v ++ quoteS

/-- `json.dump(results, f, indent=2)` on an insertion-ordered string→string
mapping: a flat JSON object, keys in list (= insertion) order, 2-space
indentation. -/
def serializeResults (rs : List (String × Orientation)) : String :=
  match rs with
  | [] => jsonEmpty
  | _ =>
    jsonHead
      ++ String.intercalate jsonSep (rs.map (fun p => jsonPair p.1 p.2.toStr))
      ++ jsonTail

/-- The mutable state of `OrientationLabeler` together with the observable
UI surface.  `loaders` is the history of loader threads, head =
`self.loader` (empty list = `None`).  `output` is the content written to the
fixed output path (`none` = nothing written yet).  `events` is ghost. -/
structure AppState where
  images : List String
  current_index : Nat
  results : List (String × Orientation)
  cache : List (Nat × Asset)
  loaded_up_to : Nat
  loaders : List Loader
  displayed : Option DisplayVal
  name_text : String
  status_text : String
  progress : Option (Nat × Nat × Nat)
  buttons_enabled : Bool
  output : Option (String × String)
  events : List Event
deriving DecidableEq, Repr

/-- `len([k for k in cache.keys() if k >= i])`. -/
def countAtOrAfter (c : List (Nat × Asset)) (i : Nat) : Nat :=
  (c.filter (fun p => i ≤ p.1)).length

/-- `OrientationLabeler.update_progress`. -/
def update_progress (st : AppState) : AppState :=
  { st with
    progress := some (st.current_index + 1, st.images.length,
                      countAtOrAfter st.cache st.current_index),
    events := st.events ++ [Event.progressEv] }

/-- Python `del d[k]` on the association-list cache. -/
def dictDel (d : List (Nat × Asset)) (k : Nat) : List (Nat × Asset) :=
  d.filter (fun p => !(p.1 == k))

/-- `OrientationLabeler.cleanup_cache`:
`old_keys = [k for k in cache.keys() if k < current_index - 5]` followed by
`del cache[k]` for each collected key.  Python's `current_index - 5` is an
integer that may be negative; for a key `k : ℕ`, `k < current_index - 5` over
ℤ is equivalent to `k + 5 < current_index` over ℕ, which is how the
comprehension's condition is rendered here. -/
def cleanup_cache (st : AppState) : AppState :=
  let old_keys := (st.cache.map Prod.fst).filter
    (fun k => k + EVICT_MARGIN < st.current_index)
  { st with
    cache := old_keys.foldl dictDel st.cache,
    events := st.events ++ [Event.evictEv] }

/-- `OrientationLabeler.finish`: stop (but do not wait for) the loader,
clear the display, write the results as JSON to the fixed output path. -/
def finish (st : AppState) : AppState :=
  { st with
    loaders :=
      match st.loaders with
      | [] => []
      | l :: rest => { l with running := false } :: rest,
    displayed := none,
    name_text := allDoneMsg,
    progress := none,
    buttons_enabled := false,
    output := some (outputPath, serializeResults st.results) }

/-- `OrientationLabeler.start_preload`: if the current loader is still
running, stop it and wait for it; then create and start a new loader from
`from_index` and advance `loaded_up_to` to `from_index + PREFETCH_COUNT`. -/
def start_preload (st : AppState) (from_index : Nat) : AppState :=
  let prev :=
    match st.loaders with
    | [] => []
    | l :: rest =>
      if l.isRunning then joinLoader { l with running := false } :: rest
      else l :: rest
  { st with
    loaders := newLoader st.images from_index :: prev,
    loaded_up_to := from_index + PREFETCH_COUNT }

/-- `OrientationLabeler.on_image_loaded`: the slot connected to the
loader's `image_ready` signal; puts the pixmap into the cache, shows it if
it is the awaited current image, and recomputes the progress surface. -/
def on_image_loaded (st : AppState) (index : Nat) (pixmap : Asset) : AppState :=
  let st1 := { st with
    cache := dictPut st.cache index pixmap,
    events := st.events ++ [Event.putEv index] }
  let st2 :=
    if index = st1.current_index ∧ st1.displayed = none then
      { st1 with displayed := some (DisplayVal.pix pixmap) }
    else st1
  update_progress st2

/-- The present-the-current-image part of `show_current_image`: cache hit →
show cached pixmap; miss → synchronous decode (`QPixmap` + `scaled`), a null
pixmap being shown as-is (placeholder), and the status line restored. -/
def presentStep (decode : String → Option Asset) (st : AppState) : AppState :=
  match st.cache.find? (fun p => p.1 == st.current_index) with
  | some p => { st with displayed := some (DisplayVal.pix p.2) }
  | none =>
    match decode (st.images.getD st.current_index noName) with
    | some a =>
      { st with displayed := some (DisplayVal.pix a), status_text := keysMsg }
    | none =>
      { st with displayed := some DisplayVal.nullPix, status_text := keysMsg }

/-- The "check if we need to preload more" step of `show_current_image`:
`if current_index >= loaded_up_to - PREFETCH_COUNT // 2: start_preload(loaded_up_to)`
(with Python int arithmetic; over ℕ the condition is
`loaded_up_to ≤ current_index + PREFETCH_COUNT / 2`). -/
def maybePreload (st : AppState) : AppState :=
  if st.loaded_up_to ≤ st.current_index + PREFETCH_COUNT / 2 then
    start_preload st st.loaded_up_to
  else st

/-- `OrientationLabeler.show_current_image`: finish when past the end,
otherwise set the name label, recompute progress, present the current
image, maybe restart the preloader, and run the eviction pass. -/
def show_current_image (decode : String → Option Asset) (st : AppState) :
    AppState :=
  if st.images.length ≤ st.current_index then finish st
  else
    cleanup_cache (maybePreload (presentStep decode
      (update_progress
        { st with name_text := st.images.getD st.current_index noName })))

/-- `OrientationLabeler.label_image`: no-op when there are no images or the
cursor is past the end; otherwise record the label, advance the cursor by
one and re-present. -/
def label_image (decode : String → Option Asset) (st : AppState)
    (orientation : Orientation) : AppState :=
  if st.images.isEmpty || st.images.length ≤ st.current_index then st
  else
    show_current_image decode
      { st with
        results := dictPut st.results (st.images.getD st.current_index noName)
                     orientation,
        current_index := st.current_index + 1 }

/-- The state of a freshly constructed `OrientationLabeler` window, with a
given folder listing about to be installed. -/
def initState (images : List String) : AppState :=
  { images := images, current_index := 0, results := [], cache := [],
    loaded_up_to := 0, loaders := [], displayed := none,
    name_text := noName, status_text := keysMsg, progress := none,
    buttons_enabled := false, output := none, events := [] }

/-- `OrientationLabeler.load_folder` for a fresh session, given the ordered,
extension-filtered folder listing supplied by the folder-selection
collaborator. -/
def load_folder (decode : String → Option Asset) (images : List String) :
    AppState :=
  if images.isEmpty then { initState images with name_text := noImagesMsg }
  else
    show_current_image decode
      (start_preload { initState images with buttons_enabled := true } 0)

/-- One scheduling quantum of the background loader thread: the active
loader (head of `loaders`) performs one loop iteration; an emitted
`image_ready` signal is delivered to `on_image_loaded`. -/
def app_loader_step (decode : String → Option Asset) (st : AppState) :
    AppState :=
  match st.loaders with
  | [] => st
  | l :: rest =>
    let s := Loader.step decode l
    let st1 := { st with loaders := s.1 :: rest }
    match s.2 with
    | some ia => on_image_loaded st1 ia.1 ia.2
    | none => st1

/-- The session transition relation: the operator labels the current image
(foreground), or the background loader runs for one quantum. -/
inductive Step (decode : String → Option Asset) : AppState → AppState → Prop
  | label (st : AppState) (o : Orientation) :
      Step decode st (label_image decode st o)
  | loader (st : AppState) :
      Step decode st (app_loader_step decode st)

/-- States reachable during one session on a given folder listing. -/
inductive Reachable (decode : String → Option Asset) (images : List String) :
    AppState → Prop
  | init : Reachable decode images (load_folder decode images)
  | step {st st' : AppState} : Reachable decode images st →
      Step decode st st' → Reachable decode images st'

/-- `advance()` repeated over a list of chosen orientations. -/
def runLabels (decode : String → Option Asset) (st : AppState)
    (os : List Orientation) : AppState :=
  os.foldl (fun s o => label_image decode s o) st

/-- `n` consecutive loader quanta. -/
def loaderStepsN (decode : String → Option Asset) : Nat → AppState → AppState
  | 0, st => st
  | n + 1, st => loaderStepsN decode n (app_loader_step decode st)

/-- A decode oracle for which every image decodes. -/
def decodeAll : String → Option Asset := fun _ => some 0

/-- A decode oracle for which no image decodes. -/
def decodeNone : String → Option Asset := fun _ => none

/-- Image file names `"0"`, `"1"`, ... -/
def nm (n : Nat) : String := toString n

/-- A folder listing of `n` images. -/
def imagesN (n : Nat) : List String := (List.range n).map nm

/-- A decode oracle failing exactly on image `"3"` (Scenario B). -/
def decodeSkip3 : String → Option Asset :=
  fun s => if s == nm 3 then none else some 0

/-- All loaders except the most recent one (`self.loader`) have left the
`Running` state. -/
def tailOk (ls : List Loader) : Bool := ls.tail.all (fun l => !l.isRunning)

/-- A concrete mid-session state exercising the restart condition:
cursor 10, current window covered up to 20. -/
def stW3 : AppState :=
  { initState (imagesN 20) with current_index := 10, loaded_up_to := 20 }

/-- The exact file content `json.dump` produces for two images both labeled
portrait. -/
def expectedJson2 : String :=
  "\x7b\n  \"0\": \"portrait\",\n  \"1\": \"portrait\"\n\x7d"

/-- Every loader in the history captured the session's image list. -/
def loadersImagesOk (st : AppState) : Prop :=
  ∀ l ∈ st.loaders, l.images = st.images

/-- Every cache entry is the successful decode of its own index. -/
def cacheSound (decode : String → Option Asset) (st : AppState) : Prop :=
  ∀ p ∈ st.cache, decode (st.images.getD p.1 noName) = some p.2

/-- The conjunction of the two data-flow invariants. -/
def Inv (decode : String → Option Asset) (st : AppState) : Prop :=
  loadersImagesOk st ∧ cacheSound decode st

/-- A concrete session state: 8 images fully prefetched, then 5 labels
(cursor 5, keys 0..7 cached). -/
def stC9pre : AppState :=
  runLabels decodeAll (loaderStepsN decodeAll 9 (load_folder decodeAll (imagesN 8)))
    (List.replicate 5 Orientation.portrait)

end OrientApp

namespace OrientApp

/-! ### Frame lemmas: which fields each operation leaves unchanged -/

@[simp] lemma update_progress_images (st : AppState) :
    (update_progress st).images = st.images := rfl

@[simp] lemma update_progress_current_index (st : AppState) :
    (update_progress st).current_index = st.current_index := rfl

@[simp] lemma update_progress_results (st : AppState) :
    (update_progress st).results = st.results := rfl

@[simp] lemma update_progress_cache (st : AppState) :
    (update_progress st).cache = st.cache := rfl

@[simp] lemma update_progress_loaders (st : AppState) :
    (update_progress st).loaders = st.loaders := rfl

@[simp] lemma update_progress_loaded_up_to (st : AppState) :
    (update_progress st).loaded_up_to = st.loaded_up_to := rfl

@[simp] lemma update_progress_output (st : AppState) :
    (update_progress st).output = st.output := rfl

@[simp] lemma update_progress_displayed (st : AppState) :
    (update_progress st).displayed = st.displayed := rfl

@[simp] lemma update_progress_progress (st : AppState) :
    (update_progress st).progress
      = some (st.current_index + 1, st.images.length,
              countAtOrAfter st.cache st.current_index) := rfl

@[simp] lemma cleanup_cache_images (st : AppState) :
    (cleanup_cache st).images = st.images := rfl

@[simp] lemma cleanup_cache_current_index (st : AppState) :
    (cleanup_cache st).current_index = st.current_index := rfl

@[simp] lemma cleanup_cache_results (st : AppState) :
    (cleanup_cache st).results = st.results := rfl

@[simp] lemma cleanup_cache_loaders (st : AppState) :
    (cleanup_cache st).loaders = st.loaders := rfl

@[simp] lemma cleanup_cache_loaded_up_to (st : AppState) :
    (cleanup_cache st).loaded_up_to = st.loaded_up_to := rfl

@[simp] lemma cleanup_cache_output (st : AppState) :
    (cleanup_cache st).output = st.output := rfl

@[simp] lemma cleanup_cache_displayed (st : AppState) :
    (cleanup_cache st).displayed = st.displayed := rfl

@[simp] lemma cleanup_cache_progress (st : AppState) :
    (cleanup_cache st).progress = st.progress := rfl

/-- Deleting every key of a list from the cache is the same as filtering the
keys out in one pass. -/
lemma foldl_dictDel_eq_filter (ks : List Nat) (c : List (Nat × Asset)) :
    ks.foldl dictDel c = c.filter (fun p => !(ks.contains p.1)) := by
  induction ks generalizing c with
  | nil => simp
  | cons k ks ih =>
    rw [List.foldl_cons, ih, dictDel, List.filter_filter]
    apply List.filter_congr
    intro p _
    rw [List.contains_cons, Bool.not_or, Bool.and_comm]

/-- Membership of a cache key in the comprehension
`[k for k in cache.keys() if q k]` is just `q` of that key. -/
lemma contains_filteredKeys (c : List (Nat × Asset)) (q : Nat → Bool)
    (p : Nat × Asset) (hp : p ∈ c) :
    ((c.map Prod.fst).filter q).contains p.1 = q p.1 := by
  cases hq : q p.1
  · simp only [List.contains_eq_any_beq]
    rw [List.any_eq_false]
    intro k hk
    rw [List.mem_filter] at hk
    intro hbeq
    have he : p.1 = k := by simpa using hbeq
    rw [he, hk.2] at hq
    simp at hq
  · have hmem : p.1 ∈ (c.map Prod.fst).filter q :=
      List.mem_filter.mpr ⟨List.mem_map_of_mem Prod.fst hp, hq⟩
    exact List.elem_eq_true_of_mem hmem

/-- The eviction pass keeps exactly the entries whose key `k` fails the
removal condition `k < current_index - 5`. -/
@[simp] lemma cleanup_cache_cache (st : AppState) :
    (cleanup_cache st).cache
      = st.cache.filter
          (fun p => !(decide (p.1 + EVICT_MARGIN < st.current_index))) := by
  show ((st.cache.map Prod.fst).filter
      (fun k => k + EVICT_MARGIN < st.current_index)).foldl dictDel st.cache = _
  rw [foldl_dictDel_eq_filter]
  apply List.filter_congr
  intro p hp
  rw [contains_filteredKeys st.cache _ p hp]

@[simp] lemma finish_images (st : AppState) : (finish st).images = st.images := rfl

@[simp] lemma finish_current_index (st : AppState) :
    (finish st).current_index = st.current_index := rfl

@[simp] lemma finish_results (st : AppState) : (finish st).results = st.results := rfl

@[simp] lemma finish_cache (st : AppState) : (finish st).cache = st.cache := rfl

@[simp] lemma finish_loaded_up_to (st : AppState) :
    (finish st).loaded_up_to = st.loaded_up_to := rfl

@[simp] lemma finish_output (st : AppState) :
    (finish st).output = some (outputPath, serializeResults st.results) := rfl

@[simp] lemma start_preload_images (st : AppState) (i : Nat) :
    (start_preload st i).images = st.images := rfl

@[simp] lemma start_preload_current_index (st : AppState) (i : Nat) :
    (start_preload st i).current_index = st.current_index := rfl

@[simp] lemma start_preload_results (st : AppState) (i : Nat) :
    (start_preload st i).results = st.results := rfl

@[simp] lemma start_preload_cache (st : AppState) (i : Nat) :
    (start_preload st i).cache = st.cache := rfl

@[simp] lemma start_preload_output (st : AppState) (i : Nat) :
    (start_preload st i).output = st.output := rfl

@[simp] lemma start_preload_displayed (st : AppState) (i : Nat) :
    (start_preload st i).displayed = st.displayed := rfl

@[simp] lemma start_preload_progress (st : AppState) (i : Nat) :
    (start_preload st i).progress = st.progress := rfl

@[simp] lemma start_preload_loaded_up_to (st : AppState) (i : Nat) :
    (start_preload st i).loaded_up_to = i + PREFETCH_COUNT := rfl

lemma presentStep_frame (decode : String → Option Asset) (st : AppState) :
    (presentStep decode st).images = st.images ∧
    (presentStep decode st).current_index = st.current_index ∧
    (presentStep decode st).results = st.results ∧
    (presentStep decode st).cache = st.cache ∧
    (presentStep decode st).loaders = st.loaders ∧
    (presentStep decode st).loaded_up_to = st.loaded_up_to ∧
    (presentStep decode st).output = st.output ∧
    (presentStep decode st).progress = st.progress ∧
    (presentStep decode st).events = st.events := by
  unfold presentStep
  split
  · exact ⟨rfl, rfl, rfl, rfl, rfl, rfl, rfl, rfl, rfl⟩
  · split
    · exact ⟨rfl, rfl, rfl, rfl, rfl, rfl, rfl, rfl, rfl⟩
    · exact ⟨rfl, rfl, rfl, rfl, rfl, rfl, rfl, rfl, rfl⟩

@[simp] lemma presentStep_images (decode : String → Option Asset) (st : AppState) :
    (presentStep decode st).images = st.images := (presentStep_frame decode st).1

@[simp] lemma presentStep_current_index (decode : String → Option Asset) (st : AppState) :
    (presentStep decode st).current_index = st.current_index :=
  (presentStep_frame decode st).2.1

@[simp] lemma presentStep_results (decode : String → Option Asset) (st : AppState) :
    (presentStep decode st).results = st.results := (presentStep_frame decode st).2.2.1

@[simp] lemma presentStep_cache (decode : String → Option Asset) (st : AppState) :
    (presentStep decode st).cache = st.cache := (presentStep_frame decode st).2.2.2.1

@[simp] lemma presentStep_loaders (decode : String → Option Asset) (st : AppState) :
    (presentStep decode st).loaders = st.loaders := (presentStep_frame decode st).2.2.2.2.1

@[simp] lemma presentStep_loaded_up_to (decode : String → Option Asset) (st : AppState) :
    (presentStep decode st).loaded_up_to = st.loaded_up_to :=
  (presentStep_frame decode st).2.2.2.2.2.1

@[simp] lemma presentStep_output (decode : String → Option Asset) (st : AppState) :
    (presentStep decode st).output = st.output :=
  (presentStep_frame decode st).2.2.2.2.2.2.1

@[simp] lemma presentStep_progress (decode : String → Option Asset) (st : AppState) :
    (presentStep decode st).progress = st.progress :=
  (presentStep_frame decode st).2.2.2.2.2.2.2.1

@[simp] lemma presentStep_events (decode : String → Option Asset) (st : AppState) :
    (presentStep decode st).events = st.events :=
  (presentStep_frame decode st).2.2.2.2.2.2.2.2

lemma maybePreload_frame (st : AppState) :
    (maybePreload st).images = st.images ∧
    (maybePreload st).current_index = st.current_index ∧
    (maybePreload st).results = st.results ∧
    (maybePreload st).cache = st.cache ∧
    (maybePreload st).output = st.output ∧
    (maybePreload st).progress = st.progress ∧
    (maybePreload st).events = st.events := by
  unfold maybePreload
  split
  · exact ⟨rfl, rfl, rfl, rfl, rfl, rfl, rfl⟩
  · exact ⟨rfl, rfl, rfl, rfl, rfl, rfl, rfl⟩

@[simp] lemma maybePreload_images (st : AppState) :
    (maybePreload st).images = st.images := (maybePreload_frame st).1

@[simp] lemma maybePreload_current_index (st : AppState) :
    (maybePreload st).current_index = st.current_index := (maybePreload_frame st).2.1

@[simp] lemma maybePreload_results (st : AppState) :
    (maybePreload st).results = st.results := (maybePreload_frame st).2.2.1

@[simp] lemma maybePreload_cache (st : AppState) :
    (maybePreload st).cache = st.cache := (maybePreload_frame st).2.2.2.1

@[simp] lemma maybePreload_output (st : AppState) :
    (maybePreload st).output = st.output := (maybePreload_frame st).2.2.2.2.1

@[simp] lemma maybePreload_progress (st : AppState) :
    (maybePreload st).progress = st.progress := (maybePreload_frame st).2.2.2.2.2.1

@[simp] lemma maybePreload_events (st : AppState) :
    (maybePreload st).events = st.events := (maybePreload_frame st).2.2.2.2.2.2

end OrientApp

namespace OrientApp

/-! ### Derived lemmas about `show_current_image`, `label_image`,
`on_image_loaded` and `app_loader_step` -/

lemma show_eq_finish (decode : String → Option Asset) (st : AppState)
    (h : st.images.length ≤ st.current_index) :
    show_current_image decode st = finish st := by
  unfold show_current_image
  simp [h]

lemma show_eq_present (decode : String → Option Asset) (st : AppState)
    (h : st.current_index < st.images.length) :
    show_current_image decode st
      = cleanup_cache (maybePreload (presentStep decode
          (update_progress
            { st with name_text := st.images.getD st.current_index noName }))) := by
  unfold show_current_image
  simp [Nat.not_le.mpr h]

@[simp] lemma show_images (decode : String → Option Asset) (st : AppState) :
    (show_current_image decode st).images = st.images := by
  by_cases h : st.images.length ≤ st.current_index
  · rw [show_eq_finish decode st h]; rfl
  · rw [show_eq_present decode st (Nat.not_le.mp h)]; simp

@[simp] lemma show_current_index (decode : String → Option Asset) (st : AppState) :
    (show_current_image decode st).current_index = st.current_index := by
  by_cases h : st.images.length ≤ st.current_index
  · rw [show_eq_finish decode st h]; rfl
  · rw [show_eq_present decode st (Nat.not_le.mp h)]; simp

@[simp] lemma show_results (decode : String → Option Asset) (st : AppState) :
    (show_current_image decode st).results = st.results := by
  by_cases h : st.images.length ≤ st.current_index
  · rw [show_eq_finish decode st h]; rfl
  · rw [show_eq_present decode st (Nat.not_le.mp h)]; simp

lemma label_image_of_lt (decode : String → Option Asset) (st : AppState)
    (o : Orientation) (h : st.current_index < st.images.length) :
    label_image decode st o
      = show_current_image decode
          { st with
            results := dictPut st.results (st.images.getD st.current_index noName) o,
            current_index := st.current_index + 1 } := by
  unfold label_image
  have h1 : st.images.isEmpty = false := by
    cases hi : st.images with
    | nil => rw [hi] at h; simp at h
    | cons a l => rfl
  simp [h1, Nat.not_le.mpr h]

lemma label_image_of_ge (decode : String → Option Asset) (st : AppState)
    (o : Orientation) (h : st.images.length ≤ st.current_index) :
    label_image decode st o = st := by
  unfold label_image
  simp [h]

@[simp] lemma label_images (decode : String → Option Asset) (st : AppState)
    (o : Orientation) : (label_image decode st o).images = st.images := by
  by_cases h : st.current_index < st.images.length
  · rw [label_image_of_lt decode st o h]; simp
  · rw [label_image_of_ge decode st o (Nat.not_lt.mp h)]

lemma label_current_index_of_lt (decode : String → Option Asset) (st : AppState)
    (o : Orientation) (h : st.current_index < st.images.length) :
    (label_image decode st o).current_index = st.current_index + 1 := by
  rw [label_image_of_lt decode st o h]; simp

@[simp] lemma on_image_loaded_current_index (st : AppState) (i : Nat) (a : Asset) :
    (on_image_loaded st i a).current_index = st.current_index := by
  unfold on_image_loaded
  dsimp only
  split <;> rfl

@[simp] lemma on_image_loaded_images (st : AppState) (i : Nat) (a : Asset) :
    (on_image_loaded st i a).images = st.images := by
  unfold on_image_loaded
  dsimp only
  split <;> rfl

@[simp] lemma on_image_loaded_results (st : AppState) (i : Nat) (a : Asset) :
    (on_image_loaded st i a).results = st.results := by
  unfold on_image_loaded
  dsimp only
  split <;> rfl

@[simp] lemma on_image_loaded_loaders (st : AppState) (i : Nat) (a : Asset) :
    (on_image_loaded st i a).loaders = st.loaders := by
  unfold on_image_loaded
  dsimp only
  split <;> rfl

@[simp] lemma on_image_loaded_cache (st : AppState) (i : Nat) (a : Asset) :
    (on_image_loaded st i a).cache = dictPut st.cache i a := by
  unfold on_image_loaded
  dsimp only
  split <;> rfl

@[simp] lemma app_loader_step_current_index (decode : String → Option Asset)
    (st : AppState) :
    (app_loader_step decode st).current_index = st.current_index := by
  unfold app_loader_step
  split
  · rfl
  · dsimp only
    split
    · simp
    · rfl

@[simp] lemma app_loader_step_images (decode : String → Option Asset)
    (st : AppState) :
    (app_loader_step decode st).images = st.images := by
  unfold app_loader_step
  split
  · rfl
  · dsimp only
    split
    · simp
    · rfl

@[simp] lemma app_loader_step_results (decode : String → Option Asset)
    (st : AppState) :
    (app_loader_step decode st).results = st.results := by
  unfold app_loader_step
  split
  · rfl
  · dsimp only
    split
    · simp
    · rfl

end OrientApp

namespace OrientApp

/-- C1: Cache window invariant: the Consumer's eviction pass
`cleanup_cache` removes exactly the keys `k` with `k < current_index − 5`
(over ℕ: `k + EVICT_MARGIN < current_index`, EVICT_MARGIN = 5), so
immediately after it every index still present in the Cache satisfies
`index ≥ cursor − EVICT_MARGIN`.  Stated for an arbitrary session state,
hence in particular for every reachable one. -/
theorem c1_cache_window_invariant (st : AppState) :
    (cleanup_cache st).cache
      = st.cache.filter
          (fun p => !(decide (p.1 + EVICT_MARGIN < st.current_index))) ∧
    ((cleanup_cache st).cache.all
      (fun p => decide (st.current_index ≤ p.1 + EVICT_MARGIN))) = true := by
  refine ⟨cleanup_cache_cache st, ?_⟩
  rw [cleanup_cache_cache st, List.all_eq_true]
  intro p hp
  rw [List.mem_filter] at hp
  have h2 := hp.2
  simp only [Bool.not_eq_true', decide_eq_false_iff_not, Nat.not_lt] at h2
  exact decide_eq_true h2

/-- C4: Cursor monotonicity: an `advance()` performed while
`cursor < N` increments the cursor by exactly 1; once `cursor ≥ N` it leaves
the cursor unchanged; and every session step (label action or loader
quantum) is non-decreasing on the cursor, so the cursor is non-decreasing
across any sequence of `advance()` calls. -/
theorem c4_cursor_monotonicity :
    (∀ (decode : String → Option Asset) (st : AppState) (o : Orientation),
        st.current_index < st.images.length →
        (label_image decode st o).current_index = st.current_index + 1) ∧
    (∀ (decode : String → Option Asset) (st : AppState) (o : Orientation),
        st.images.length ≤ st.current_index →
        (label_image decode st o).current_index = st.current_index) ∧
    (∀ (decode : String → Option Asset) (st st' : AppState),
        Step decode st st' → st.current_index ≤ st'.current_index) := by
  refine ⟨?_, ?_, ?_⟩
  · intro decode st o h
    exact label_current_index_of_lt decode st o h
  · intro decode st o h
    rw [label_image_of_ge decode st o h]
  · intro decode st st' hstep
    cases hstep with
    | label o =>
      by_cases h : st.current_index < st.images.length
      · rw [label_current_index_of_lt decode st o h]
        exact Nat.le_succ _
      · rw [label_image_of_ge decode st o (Nat.not_lt.mp h)]
    | loader =>
      rw [app_loader_step_current_index]

/-- C4 witness: on a concrete two-image session the first `advance()` takes
the cursor from 0 to 1. -/
theorem c4_cursor_monotonicity_witness :
    (label_image decodeAll (load_folder decodeAll (imagesN 2))
        Orientation.portrait).current_index
      = (load_folder decodeAll (imagesN 2)).current_index + 1 :=
  c4_cursor_monotonicity.1 decodeAll (load_folder decodeAll (imagesN 2))
    Orientation.portrait (by decide)

/-- C10: an `advance()` issued when the Sequence is empty or the cursor
already equals N is a complete no-op: the whole state — Label Map, cursor,
Cache, loaders, display, written output — is returned unchanged. -/
theorem c10_advance_noop (decode : String → Option Asset) (st : AppState)
    (o : Orientation)
    (h : st.images = [] ∨ st.current_index = st.images.length) :
    label_image decode st o = st := by
  apply label_image_of_ge
  rcases h with h | h
  · rw [h]
    exact Nat.zero_le _
  · rw [h]

/-- C10 witness: labeling with no folder loaded (empty sequence) changes
nothing. -/
theorem c10_advance_noop_witness :
    label_image decodeAll (load_folder decodeAll []) Orientation.portrait
      = load_folder decodeAll [] :=
  c10_advance_noop decodeAll (load_folder decodeAll []) Orientation.portrait
    (Or.inl (by decide))

/-- C7 counterexample: with an empty folder the code does NOT serialize the
empty Label Map and does NOT report completion: nothing is written to the
output path, and the name label shows the not-found message instead of the
completion message. -/
theorem c7_counterexample :
    (load_folder decodeAll []).output.isNone = true ∧
    ((load_folder decodeAll []).name_text == allDoneMsg) = false ∧
    (load_folder decodeAll []).name_text = noImagesMsg := by
  decide

/-- C7 (amended): when the selected folder contains 0 recognized images, no
Loader is ever started and the Label Map stays empty, but the session does
not report completion and does not write the Label Map out: it displays
"No images found in folder", leaves the labeling buttons disabled, and
subsequent label actions are no-ops. -/
theorem c7_empty_folder (decode : String → Option Asset) (o : Orientation) :
    (load_folder decode []).loaders = [] ∧
    (load_folder decode []).output = none ∧
    (load_folder decode []).results = [] ∧
    (load_folder decode []).buttons_enabled = false ∧
    (load_folder decode []).name_text = noImagesMsg ∧
    label_image decode (load_folder decode []) o = load_folder decode [] := by
  refine ⟨rfl, rfl, rfl, rfl, rfl, ?_⟩
  exact label_image_of_ge decode _ o (Nat.le_refl 0)

end OrientApp

namespace OrientApp

/-! ### C2: the single-loader invariant -/

lemma joinLoader_isRunning (l : Loader) : (joinLoader l).isRunning = false := by
  unfold joinLoader Loader.isRunning
  split
  · rename_i h
    exact decide_eq_false h
  · split
    · simp
    · simp

lemma start_preload_loaders (st : AppState) (i : Nat) :
    (start_preload st i).loaders
      = newLoader st.images i ::
          (match st.loaders with
           | [] => []
           | l :: rest =>
             if l.isRunning then joinLoader { l with running := false } :: rest
             else l :: rest) := rfl

lemma start_preload_tailOk (st : AppState) (i : Nat)
    (h : tailOk st.loaders = true) :
    tailOk (start_preload st i).loaders = true := by
  rw [start_preload_loaders]
  unfold tailOk at h ⊢
  cases hl : st.loaders with
  | nil => simp
  | cons l rest =>
    rw [hl] at h
    simp only [List.tail_cons] at h
    by_cases hr : l.isRunning = true
    · simp only [hr, if_true, List.tail_cons, List.all_cons]
      rw [joinLoader_isRunning]
      simpa using h
    · simp only [Bool.not_eq_true] at hr
      simp only [hr, Bool.false_eq_true, if_false, List.tail_cons, List.all_cons]
      simpa using h

lemma finish_loaders (st : AppState) :
    (finish st).loaders
      = match st.loaders with
        | [] => []
        | l :: rest => { l with running := false } :: rest := rfl

lemma finish_tailOk (st : AppState) (h : tailOk st.loaders = true) :
    tailOk (finish st).loaders = true := by
  rw [finish_loaders]
  unfold tailOk at h ⊢
  cases hl : st.loaders with
  | nil => simp
  | cons l rest =>
    rw [hl] at h
    simpa using h

lemma maybePreload_tailOk (st : AppState) (h : tailOk st.loaders = true) :
    tailOk (maybePreload st).loaders = true := by
  unfold maybePreload
  split
  · exact start_preload_tailOk st _ h
  · exact h

lemma show_tailOk (decode : String → Option Asset) (st : AppState)
    (h : tailOk st.loaders = true) :
    tailOk (show_current_image decode st).loaders = true := by
  by_cases hc : st.images.length ≤ st.current_index
  · rw [show_eq_finish decode st hc]
    exact finish_tailOk st h
  · rw [show_eq_present decode st (Nat.not_le.mp hc)]
    rw [cleanup_cache_loaders]
    apply maybePreload_tailOk
    rw [presentStep_loaders, update_progress_loaders]
    exact h

lemma label_tailOk (decode : String → Option Asset) (st : AppState)
    (o : Orientation) (h : tailOk st.loaders = true) :
    tailOk (label_image decode st o).loaders = true := by
  by_cases hc : st.current_index < st.images.length
  · rw [label_image_of_lt decode st o hc]
    exact show_tailOk decode _ h
  · rw [label_image_of_ge decode st o (Nat.not_lt.mp hc)]
    exact h

lemma app_loader_step_tailOk (decode : String → Option Asset) (st : AppState)
    (h : tailOk st.loaders = true) :
    tailOk (app_loader_step decode st).loaders = true := by
  unfold app_loader_step
  cases hl : st.loaders with
  | nil => simpa [hl] using h
  | cons l rest =>
    dsimp only
    rw [hl] at h
    unfold tailOk at h ⊢
    split
    · rw [on_image_loaded_loaders]
      simpa using h
    · simpa using h

lemma load_folder_tailOk (decode : String → Option Asset)
    (images : List String) :
    tailOk (load_folder decode images).loaders = true := by
  unfold load_folder
  split
  · rfl
  · apply show_tailOk
    apply start_preload_tailOk
    rfl

lemma reachable_tailOk (decode : String → Option Asset) (images : List String)
    (st : AppState) (h : Reachable decode images st) :
    tailOk st.loaders = true := by
  induction h with
  | init => exact load_folder_tailOk decode images
  | step _ hs ih =>
    cases hs with
    | label o => exact label_tailOk decode _ o ih
    | loader => exact app_loader_step_tailOk decode _ ih

lemma tailOk_filter_length (ls : List Loader) (h : tailOk ls = true) :
    (ls.filter (fun l => l.isRunning)).length ≤ 1 := by
  cases ls with
  | nil => simp
  | cons l rest =>
    unfold tailOk at h
    simp only [List.tail_cons] at h
    have hrest : rest.filter (fun l => l.isRunning) = [] := by
      rw [List.filter_eq_nil_iff]
      intro a ha
      rw [List.all_eq_true] at h
      have := h a ha
      simp only [Bool.not_eq_true'] at this
      simp [this]
    rw [List.filter_cons]
    split
    · rw [hrest]
      simp
    · rw [hrest]
      simp

end OrientApp

namespace OrientApp

/-- C2: Single-loader invariant: in every reachable session state at most
one Loader is in the `Running` state (only the most recent one,
`self.loader`, can be running); and whenever the Supervisor
(`start_preload`) starts a new Loader from such a state, every previous
Loader — a still-running one being first cancelled and joined — is out of
the `Running` state before the successor becomes the active head. -/
theorem c2_single_loader (decode : String → Option Asset)
    (images : List String) (st : AppState)
    (h : Reachable decode images st) :
    tailOk st.loaders = true ∧
    (st.loaders.filter (fun l => l.isRunning)).length ≤ 1 ∧
    (∀ i : Nat,
      (start_preload st i).loaders.head? = some (newLoader st.images i) ∧
      ((start_preload st i).loaders.tail.all (fun l => !l.isRunning)) = true) := by
  have ht := reachable_tailOk decode images st h
  refine ⟨ht, tailOk_filter_length st.loaders ht, ?_⟩
  intro i
  constructor
  · rw [start_preload_loaders]
    rfl
  · exact start_preload_tailOk st i ht

/-- C2 witness: the invariant holds at the concrete initial state of a
two-image session. -/
theorem c2_single_loader_witness :
    tailOk (load_folder decodeAll (imagesN 2)).loaders = true ∧
    ((load_folder decodeAll (imagesN 2)).loaders.filter
        (fun l => l.isRunning)).length ≤ 1 :=
  ⟨(c2_single_loader decodeAll (imagesN 2) _ Reachable.init).1,
   (c2_single_loader decodeAll (imagesN 2) _ Reachable.init).2.1⟩

end OrientApp

namespace OrientApp

/-! ### C3: the supervisor restart policy -/

lemma maybePreload_of_le (st : AppState)
    (h : st.loaded_up_to ≤ st.current_index + PREFETCH_COUNT / 2) :
    maybePreload st = start_preload st st.loaded_up_to := by
  unfold maybePreload
  simp [h]

lemma maybePreload_of_gt (st : AppState)
    (h : st.current_index + PREFETCH_COUNT / 2 < st.loaded_up_to) :
    maybePreload st = st := by
  unfold maybePreload
  simp [Nat.not_le.mpr h]

lemma start_preload_length (st : AppState) (i : Nat) :
    (start_preload st i).loaders.length = st.loaders.length + 1 := by
  rw [start_preload_loaders]
  cases st.loaders with
  | nil => rfl
  | cons l rest =>
    dsimp only
    split <;> simp

/-- C3: Supervisor restart policy: while presenting an in-range item, a new
Loader is started exactly when `cursor ≥ loaded_up_to − WINDOW_SIZE/2`
(WINDOW_SIZE = PREFETCH_COUNT = 20; over ℕ the condition reads
`loaded_up_to ≤ cursor + 10`): in that case the new active Loader is
`newLoader images loaded_up_to` — its job covers
`[loaded_up_to, loaded_up_to + 20) ∩ [0, N)` — and `loaded_up_to` advances
by `WINDOW_SIZE`; otherwise loaders and `loaded_up_to` are untouched.  In
particular, in the 20-image Scenario A, after 10 `advance()` calls the
active Loader is `newLoader [img0..img19] 20`, whose capped range
`[20, min(40, 20))` is empty, and `loaded_up_to` has advanced to 40. -/
theorem c3_restart_policy :
    (∀ (decode : String → Option Asset) (st : AppState),
      st.current_index < st.images.length →
      (st.loaded_up_to ≤ st.current_index + PREFETCH_COUNT / 2 →
          (show_current_image decode st).loaders.head?
            = some (newLoader st.images st.loaded_up_to) ∧
          (show_current_image decode st).loaders.length
            = st.loaders.length + 1 ∧
          (show_current_image decode st).loaded_up_to
            = st.loaded_up_to + PREFETCH_COUNT) ∧
      (st.current_index + PREFETCH_COUNT / 2 < st.loaded_up_to →
          (show_current_image decode st).loaders = st.loaders ∧
          (show_current_image decode st).loaded_up_to = st.loaded_up_to)) ∧
    ((runLabels decodeAll (load_folder decodeAll (imagesN 20))
        (List.replicate 10 Orientation.portrait)).loaders.head?
      = some (newLoader (imagesN 20) 20) ∧
     (newLoader (imagesN 20) 20).start_index = 20 ∧
     Loader.endIndex (newLoader (imagesN 20) 20) = 20 ∧
     (runLabels decodeAll (load_folder decodeAll (imagesN 20))
        (List.replicate 10 Orientation.portrait)).loaded_up_to = 40) := by
  constructor
  · intro decode st h
    rw [show_eq_present decode st h]
    constructor
    · intro hle
      rw [maybePreload_of_le _ (by simpa using hle)]
      refine ⟨?_, ?_, ?_⟩
      · rw [cleanup_cache_loaders, start_preload_loaders]
        simp
      · rw [cleanup_cache_loaders, start_preload_length]
        simp
      · rw [cleanup_cache_loaded_up_to, start_preload_loaded_up_to]
        simp
    · intro hgt
      rw [maybePreload_of_gt _ (by simpa using hgt)]
      constructor
      · rw [cleanup_cache_loaders]
        simp
      · rw [cleanup_cache_loaded_up_to]
        simp
  · refine ⟨?_, ?_, ?_, ?_⟩ <;> decide

/-- C3 witness: from the concrete state with cursor 10 and window covered
up to 20, presenting starts the Loader for `[20, 40)` and advances
`loaded_up_to` to 40. -/
theorem c3_restart_policy_witness :
    (show_current_image decodeAll stW3).loaders.head?
      = some (newLoader stW3.images stW3.loaded_up_to) ∧
    (show_current_image decodeAll stW3).loaded_up_to
      = stW3.loaded_up_to + PREFETCH_COUNT :=
  ⟨((c3_restart_policy.1 decodeAll stW3 (by decide)).1 (by decide)).1,
   ((c3_restart_policy.1 decodeAll stW3 (by decide)).1 (by decide)).2.2⟩

end OrientApp

namespace OrientApp

lemma runLabels_cons (decode : String → Option Asset) (st : AppState)
    (o : Orientation) (os : List Orientation) :
    runLabels decode st (o :: os) = runLabels decode (label_image decode st o) os := rfl

lemma dictPut_append {β : Type} (d : List (String × β)) (k : String) (v : β)
    (h : k ∉ d.map Prod.fst) : dictPut d k v = d ++ [(k, v)] := by
  unfold dictPut
  rw [if_neg]
  intro hany
  rw [List.any_eq_true] at hany
  obtain ⟨p, hp, hbeq⟩ := hany
  have : p.1 = k := by simpa using hbeq
  exact h (this ▸ List.mem_map_of_mem Prod.fst hp)

lemma runLabels_spec (decode : String → Option Asset) (images : List String)
    (hnd : images.Nodup) :
    ∀ (os : List Orientation) (st : AppState),
      st.images = images →
      st.current_index + os.length ≤ images.length →
      st.results.map Prod.fst = images.take st.current_index →
      (runLabels decode st os).images = images ∧
      (runLabels decode st os).current_index = st.current_index + os.length ∧
      (runLabels decode st os).results
        = st.results ++ ((images.drop st.current_index).take os.length).zip os := by
  intro os
  induction os with
  | nil =>
    intro st h1 h2 h3
    refine ⟨h1, rfl, ?_⟩
    simp [runLabels]
  | cons o os ih =>
    intro st h1 h2 h3
    have hci : st.current_index < images.length := by
      simp only [List.length_cons] at h2
      omega
    have hci' : st.current_index < st.images.length := by rw [h1]; exact hci
    have hgetD : st.images.getD st.current_index noName
        = images[st.current_index] := by
      rw [h1]
      exact List.getD_eq_getElem images noName hci
    have hdropcons : images.drop st.current_index
        = images[st.current_index] :: images.drop (st.current_index + 1) :=
      List.drop_eq_getElem_cons hci
    have hnotintake : images[st.current_index] ∉ images.take st.current_index := by
      have hsplit := List.take_append_drop st.current_index images
      have hnd2 : (images.take st.current_index ++ images.drop st.current_index).Nodup := by
        rw [hsplit]; exact hnd
      have hdisj := (List.nodup_append.mp hnd2).2.2
      intro hmem
      exact hdisj hmem (by rw [hdropcons]; exact List.mem_cons_self _ _)
    set st2 : AppState :=
      { st with
        results := dictPut st.results (st.images.getD st.current_index noName) o,
        current_index := st.current_index + 1 } with hst2
    have hlabel : label_image decode st o = show_current_image decode st2 :=
      label_image_of_lt decode st o hci'
    have hres2 : st2.results = st.results ++ [(images[st.current_index], o)] := by
      rw [hst2]
      dsimp only
      rw [hgetD]
      exact dictPut_append st.results _ o (by rw [h3]; exact hnotintake)
    have himg2 : (show_current_image decode st2).images = images := by
      rw [show_images, hst2]; exact h1
    have hci2 : (show_current_image decode st2).current_index = st.current_index + 1 := by
      rw [show_current_index]
    have hres2' : (show_current_image decode st2).results.map Prod.fst
        = images.take (st.current_index + 1) := by
      rw [show_results, hres2, List.map_append, h3, List.take_succ]
      simp [List.getElem?_eq_getElem hci]
    have ihspec := ih (show_current_image decode st2) himg2
      (by rw [hci2]; simp only [List.length_cons] at h2; omega)
      (by rw [hci2]; exact hres2')
    rw [runLabels_cons, hlabel]
    refine ⟨ihspec.1, ?_, ?_⟩
    · rw [ihspec.2.1, hci2]
      simp only [List.length_cons]
      omega
    · rw [ihspec.2.2, hci2, show_results, hres2]
      rw [hdropcons]
      simp only [List.length_cons, List.take_succ_cons, List.zip_cons_cons]
      rw [List.append_assoc]
      rfl

end OrientApp

namespace OrientApp

lemma zip_replicate_eq_map {α : Type} (l : List α) (x : Orientation) :
    l.zip (List.replicate l.length x) = l.map (fun a => (a, x)) := by
  induction l with
  | nil => rfl
  | cons a l ih => simp [List.replicate_succ, ih]

lemma label_last (decode : String → Option Asset) (st : AppState) (o : Orientation)
    (h : st.current_index + 1 = st.images.length) :
    (label_image decode st o).output
      = some (outputPath, serializeResults (label_image decode st o).results) ∧
    (∀ l ∈ (label_image decode st o).loaders.head?, l.running = false) := by
  have hci : st.current_index < st.images.length := by omega
  rw [label_image_of_lt decode st o hci]
  have hend : (AppState.images
      { st with
        results := dictPut st.results (st.images.getD st.current_index noName) o,
        current_index := st.current_index + 1 }).length
      ≤ (AppState.current_index
      { st with
        results := dictPut st.results (st.images.getD st.current_index noName) o,
        current_index := st.current_index + 1 }) := by
    dsimp only
    omega
  rw [show_eq_finish decode _ hend]
  constructor
  · rw [finish_output, finish_results]
  · rw [finish_loaders]
    dsimp only
    cases st.loaders with
    | nil => simp
    | cons l rest =>
      intro l' hl'
      simp only [List.head?_cons, Option.mem_def, Option.some.injEq] at hl'
      rw [← hl']

lemma step_of_stopped (decode : String → Option Asset) (l : Loader)
    (h : l.running = false) :
    (Loader.step decode l).2 = none ∧
    (Loader.step decode l).1.isRunning = false := by
  unfold Loader.step
  by_cases h1 : l.status ≠ LoaderStatus.Running
  · rw [if_pos h1]
    exact ⟨rfl, decide_eq_false h1⟩
  · rw [if_neg h1]
    by_cases h2 : l.endIndex ≤ l.next
    · rw [if_pos h2]
      refine ⟨rfl, ?_⟩
      unfold Loader.isRunning
      simp
    · rw [if_neg h2, if_pos h]
      refine ⟨rfl, ?_⟩
      unfold Loader.isRunning
      simp

lemma load_folder_fields (decode : String → Option Asset) (images : List String)
    (hne : images ≠ []) :
    (load_folder decode images).images = images ∧
    (load_folder decode images).current_index = 0 ∧
    (load_folder decode images).results = [] := by
  unfold load_folder
  rw [if_neg (by simpa using hne)]
  refine ⟨?_, ?_, ?_⟩ <;> simp [initState]

lemma session_complete (decode : String → Option Asset) (images : List String)
    (hnd : images.Nodup) (hne : images ≠ []) (os : List Orientation)
    (hlen : os.length = images.length) :
    (runLabels decode (load_folder decode images) os).results = images.zip os ∧
    (runLabels decode (load_folder decode images) os).results.map Prod.fst
      = images ∧
    (runLabels decode (load_folder decode images) os).results.length
      = images.length ∧
    (runLabels decode (load_folder decode images) os).output
      = some (outputPath,
          serializeResults (runLabels decode (load_folder decode images) os).results) ∧
    (∀ l ∈ (runLabels decode (load_folder decode images) os).loaders.head?,
        l.running = false ∧ (Loader.step decode l).2 = none ∧
        (Loader.step decode l).1.isRunning = false) := by
  obtain ⟨h0img, h0ci, h0res⟩ := load_folder_fields decode images hne
  have hspec := runLabels_spec decode images hnd os (load_folder decode images)
    h0img (by rw [h0ci, hlen]; omega) (by rw [h0res, h0ci]; simp)
  have hres : (runLabels decode (load_folder decode images) os).results
      = images.zip os := by
    rw [hspec.2.2, h0res, h0ci, List.drop_zero, hlen, List.take_length]
    rfl
  have hmapfst : (runLabels decode (load_folder decode images) os).results.map Prod.fst
      = images := by
    rw [hres]
    exact List.map_fst_zip images os (by rw [hlen])
  refine ⟨hres, hmapfst, ?_, ?_, ?_⟩
  · rw [hres, List.length_zip, hlen]
    exact Nat.min_self _
  · -- split the last label off
    obtain ⟨os', o, hos⟩ : ∃ os' o, os = os' ++ [o] := by
      rcases List.eq_nil_or_concat os with hnil | ⟨os', o, hos⟩
      · exfalso
        rw [hnil] at hlen
        simp only [List.length_nil] at hlen
        exact hne (List.eq_nil_of_length_eq_zero hlen.symm)
      · exact ⟨os', o, by rw [hos, List.concat_eq_append]⟩
    have hrun : runLabels decode (load_folder decode images) os
        = label_image decode (runLabels decode (load_folder decode images) os') o := by
      rw [hos]
      unfold runLabels
      rw [List.foldl_append]
      rfl
    have hmid := runLabels_spec decode images hnd os' (load_folder decode images)
      h0img (by rw [h0ci]; rw [hos] at hlen; simp at hlen; omega)
      (by rw [h0res, h0ci]; simp)
    have hlast : (runLabels decode (load_folder decode images) os').current_index + 1
        = (runLabels decode (load_folder decode images) os').images.length := by
      rw [hmid.1, hmid.2.1, h0ci]
      rw [hos] at hlen
      simp only [List.length_append, List.length_cons, List.length_nil] at hlen
      omega
    rw [hrun]
    exact (label_last decode _ o hlast).1
  · obtain ⟨os', o, hos⟩ : ∃ os' o, os = os' ++ [o] := by
      rcases List.eq_nil_or_concat os with hnil | ⟨os', o, hos⟩
      · exfalso
        rw [hnil] at hlen
        simp only [List.length_nil] at hlen
        exact hne (List.eq_nil_of_length_eq_zero hlen.symm)
      · exact ⟨os', o, by rw [hos, List.concat_eq_append]⟩
    have hrun : runLabels decode (load_folder decode images) os
        = label_image decode (runLabels decode (load_folder decode images) os') o := by
      rw [hos]
      unfold runLabels
      rw [List.foldl_append]
      rfl
    have hmid := runLabels_spec decode images hnd os' (load_folder decode images)
      h0img (by rw [h0ci]; rw [hos] at hlen; simp at hlen; omega)
      (by rw [h0res, h0ci]; simp)
    have hlast : (runLabels decode (load_folder decode images) os').current_index + 1
        = (runLabels decode (load_folder decode images) os').images.length := by
      rw [hmid.1, hmid.2.1, h0ci]
      rw [hos] at hlen
      simp only [List.length_append, List.length_cons, List.length_nil] at hlen
      omega
    intro l hl
    rw [hrun] at hl
    have hflag := (label_last decode _ o hlast).2 l hl
    exact ⟨hflag, (step_of_stopped decode l hflag).1, (step_of_stopped decode l hflag).2⟩

end OrientApp

namespace OrientApp

/-- C5 counterexample: with one image and a schedule in which the loader
thread never got a quantum, after exactly N = 1 `advance()` calls the Label
Map has its 1 entry and the output is written, but the Loader is still in
the `Running` state: `finish` only sets the cancellation flag
(`self.loader.stop()`) and does not join, so the claim "the Loader is not
in the Running state" fails at this instant. -/
theorem c5_counterexample :
    ((label_image decodeAll (load_folder decodeAll (imagesN 1))
        Orientation.portrait).loaders.map (fun l => l.status))
      = [LoaderStatus.Running] ∧
    ((label_image decodeAll (load_folder decodeAll (imagesN 1))
        Orientation.portrait).loaders.map (fun l => l.running)) = [false] ∧
    (label_image decodeAll (load_folder decodeAll (imagesN 1))
        Orientation.portrait).results.length = 1 := by
  refine ⟨?_, ?_, ?_⟩ <;> decide

/-- C5 (amended): for every non-empty sequence of N distinct item
identifiers, after exactly N `advance()` calls from cursor 0 (under any
choice of labels) the Label Map contains exactly N entries, one per item
identifier, and the output is written; the Loader is not necessarily out of
the `Running` state, but its cancellation flag has been cleared by
`finish`, so it can never publish again and leaves `Running` at its very
next quantum. -/
theorem c5_completion (decode : String → Option Asset) (images : List String)
    (os : List Orientation) (hnd : images.Nodup) (hne : images ≠ [])
    (hlen : os.length = images.length) :
    (runLabels decode (load_folder decode images) os).results.map Prod.fst
      = images ∧
    (runLabels decode (load_folder decode images) os).results.length
      = images.length ∧
    (runLabels decode (load_folder decode images) os).output.isSome = true ∧
    (∀ l ∈ (runLabels decode (load_folder decode images) os).loaders.head?,
        l.running = false ∧ (Loader.step decode l).2 = none ∧
        (Loader.step decode l).1.isRunning = false) := by
  obtain ⟨_, hmap, hlen2, hout, hloader⟩ :=
    session_complete decode images hnd hne os hlen
  exact ⟨hmap, hlen2, by rw [hout]; rfl, hloader⟩

/-- C5 witness: the amended completion property evaluated on a concrete
two-image session. -/
theorem c5_completion_witness :
    (runLabels decodeAll (load_folder decodeAll (imagesN 2))
        [Orientation.portrait, Orientation.landscape]).results.map Prod.fst
      = imagesN 2 ∧
    (runLabels decodeAll (load_folder decodeAll (imagesN 2))
        [Orientation.portrait, Orientation.landscape]).results.length
      = (imagesN 2).length ∧
    (runLabels decodeAll (load_folder decodeAll (imagesN 2))
        [Orientation.portrait, Orientation.landscape]).output.isSome = true :=
  ⟨(c5_completion decodeAll (imagesN 2) _ (by decide) (by decide) (by decide)).1,
   (c5_completion decodeAll (imagesN 2) _ (by decide) (by decide) (by decide)).2.1,
   (c5_completion decodeAll (imagesN 2) _ (by decide) (by decide) (by decide)).2.2.1⟩

/-- C8: Output serialization: on the `advance()` that takes the cursor to
N, the Label Map is serialized by `serializeResults` — a flat JSON object
mapping each item identifier to "portrait"/"landscape", 2-space indented,
keys in Label-Map insertion order — and written to the fixed path
`outputPath`; labeling all N (distinct) items "portrait" yields exactly the
object `[(img, portrait) for each img in order]`, and on a concrete
two-image session the exact bytes written are `expectedJson2`. -/
theorem c8_output_serialization :
    (∀ (decode : String → Option Asset) (st : AppState) (o : Orientation),
        st.current_index + 1 = st.images.length →
        (label_image decode st o).output
          = some (outputPath,
              serializeResults (label_image decode st o).results)) ∧
    (∀ (decode : String → Option Asset) (images : List String),
        images.Nodup → images ≠ [] →
        (runLabels decode (load_folder decode images)
            (List.replicate images.length Orientation.portrait)).results
          = images.map (fun n => (n, Orientation.portrait)) ∧
        (runLabels decode (load_folder decode images)
            (List.replicate images.length Orientation.portrait)).output
          = some (outputPath,
              serializeResults
                (images.map (fun n => (n, Orientation.portrait))))) ∧
    (runLabels decodeAll (load_folder decodeAll (imagesN 2))
        (List.replicate 2 Orientation.portrait)).output
      = some (outputPath, expectedJson2) := by
  refine ⟨?_, ?_, ?_⟩
  · intro decode st o h
    exact (label_last decode st o h).1
  · intro decode images hnd hne
    obtain ⟨hres, _, _, hout, _⟩ := session_complete decode images hnd hne
      (List.replicate images.length Orientation.portrait)
      (List.length_replicate _ _)
    have hmapform : (runLabels decode (load_folder decode images)
        (List.replicate images.length Orientation.portrait)).results
        = images.map (fun n => (n, Orientation.portrait)) := by
      rw [hres, zip_replicate_eq_map]
    exact ⟨hmapform, by rw [hout, hmapform]⟩
  · decide

/-- C8 witness: the final `advance()` of a one-image session writes the
serialized Label Map to the fixed output path. -/
theorem c8_output_serialization_witness :
    (label_image decodeAll (load_folder decodeAll (imagesN 1))
        Orientation.portrait).output
      = some (outputPath,
          serializeResults (label_image decodeAll
            (load_folder decodeAll (imagesN 1)) Orientation.portrait).results) :=
  c8_output_serialization.1 decodeAll (load_folder decodeAll (imagesN 1))
    Orientation.portrait (by decide)

end OrientApp

namespace OrientApp

/-! ### C6 machinery: decode failures are never published -/

lemma joinLoader_images (l : Loader) : (joinLoader l).images = l.images := by
  unfold joinLoader
  split
  · rfl
  · split <;> rfl

lemma step_loader_images (decode : String → Option Asset) (l : Loader) :
    (Loader.step decode l).1.images = l.images := by
  unfold Loader.step
  split
  · rfl
  · split
    · rfl
    · split
      · rfl
      · split <;> rfl

lemma step_publish_sound (decode : String → Option Asset) (l : Loader)
    (ia : Nat × Asset) (h : (Loader.step decode l).2 = some ia) :
    decode (l.images.getD ia.1 noName) = some ia.2 := by
  unfold Loader.step at h
  by_cases h1 : l.status ≠ LoaderStatus.Running
  · rw [if_pos h1] at h
    simp at h
  · rw [if_neg h1] at h
    by_cases h2 : l.endIndex ≤ l.next
    · rw [if_pos h2] at h
      simp at h
    · rw [if_neg h2] at h
      by_cases h3 : l.running = false
      · rw [if_pos h3] at h
        simp at h
      · rw [if_neg h3] at h
        cases hd : decode (l.images.getD l.next noName) with
        | some a =>
          rw [hd] at h
          injection h with h'
          rw [← h']
          exact hd
        | none =>
          rw [hd] at h
          simp at h

lemma inv_transfer (decode : String → Option Asset) (st st' : AppState)
    (himg : st'.images = st.images) (hld : st'.loaders = st.loaders)
    (hc : st'.cache = st.cache) (h : Inv decode st) : Inv decode st' := by
  constructor
  · intro l hl
    rw [himg]
    exact h.1 l (by rw [← hld]; exact hl)
  · intro p hp
    rw [himg]
    exact h.2 p (by rw [← hc]; exact hp)

lemma inv_start_preload (decode : String → Option Asset) (st : AppState)
    (i : Nat) (h : Inv decode st) : Inv decode (start_preload st i) := by
  constructor
  · intro l hl
    rw [start_preload_loaders] at hl
    rw [start_preload_images]
    rcases List.mem_cons.mp hl with hl | hl
    · rw [hl]
      rfl
    · cases hls : st.loaders with
      | nil => rw [hls] at hl; simp at hl
      | cons l0 rest =>
        rw [hls] at hl
        dsimp only at hl
        by_cases hr : l0.isRunning
        · rw [if_pos hr] at hl
          rcases List.mem_cons.mp hl with hl | hl
          · rw [hl, joinLoader_images]
            exact h.1 l0 (by rw [hls]; exact List.mem_cons_self _ _)
          · exact h.1 l (by rw [hls]; exact List.mem_cons_of_mem _ hl)
        · rw [if_neg hr] at hl
          exact h.1 l (by rw [hls]; exact hl)
  · intro p hp
    rw [start_preload_images]
    exact h.2 p (by rw [← start_preload_cache st i]; exact hp)

lemma inv_finish (decode : String → Option Asset) (st : AppState)
    (h : Inv decode st) : Inv decode (finish st) := by
  constructor
  · intro l hl
    rw [finish_loaders] at hl
    rw [finish_images]
    cases hls : st.loaders with
    | nil => rw [hls] at hl; simp at hl
    | cons l0 rest =>
      rw [hls] at hl
      dsimp only at hl
      rcases List.mem_cons.mp hl with hl | hl
      · rw [hl]
        exact h.1 l0 (by rw [hls]; exact List.mem_cons_self _ _)
      · exact h.1 l (by rw [hls]; exact List.mem_cons_of_mem _ hl)
  · intro p hp
    rw [finish_images]
    exact h.2 p (by rw [← finish_cache st]; exact hp)

lemma inv_cleanup (decode : String → Option Asset) (st : AppState)
    (h : Inv decode st) : Inv decode (cleanup_cache st) := by
  constructor
  · intro l hl
    rw [cleanup_cache_images]
    exact h.1 l (by rw [← cleanup_cache_loaders st]; exact hl)
  · intro p hp
    rw [cleanup_cache_images]
    rw [cleanup_cache_cache] at hp
    exact h.2 p (List.mem_filter.mp hp).1

lemma inv_maybePreload (decode : String → Option Asset) (st : AppState)
    (h : Inv decode st) : Inv decode (maybePreload st) := by
  unfold maybePreload
  split
  · exact inv_start_preload decode st _ h
  · exact h

lemma inv_show (decode : String → Option Asset) (st : AppState)
    (h : Inv decode st) : Inv decode (show_current_image decode st) := by
  by_cases hc : st.images.length ≤ st.current_index
  · rw [show_eq_finish decode st hc]
    exact inv_finish decode st h
  · rw [show_eq_present decode st (Nat.not_le.mp hc)]
    apply inv_cleanup
    apply inv_maybePreload
    exact inv_transfer decode _ _
      (presentStep_images decode _) (presentStep_loaders decode _)
      (presentStep_cache decode _)
      (inv_transfer decode st _ rfl rfl rfl h)

lemma inv_label (decode : String → Option Asset) (st : AppState)
    (o : Orientation) (h : Inv decode st) :
    Inv decode (label_image decode st o) := by
  by_cases hc : st.current_index < st.images.length
  · rw [label_image_of_lt decode st o hc]
    apply inv_show
    exact inv_transfer decode st _ rfl rfl rfl h
  · rw [label_image_of_ge decode st o (Nat.not_lt.mp hc)]
    exact h

lemma inv_loader_quantum (decode : String → Option Asset) (st : AppState)
    (h : Inv decode st) : Inv decode (app_loader_step decode st) := by
  unfold app_loader_step
  cases hls : st.loaders with
  | nil => exact h
  | cons l rest =>
    dsimp only
    have hlimg : l.images = st.images :=
      h.1 l (by rw [hls]; exact List.mem_cons_self _ _)
    cases hpub : (Loader.step decode l).2 with
    | none =>
      constructor
      · intro l' hl'
        dsimp only at hl'
        rcases List.mem_cons.mp hl' with hl' | hl'
        · rw [hl', step_loader_images, hlimg]
        · exact h.1 l' (by rw [hls]; exact List.mem_cons_of_mem _ hl')
      · intro p hp
        exact h.2 p hp
    | some ia =>
      have hsound : decode (st.images.getD ia.1 noName) = some ia.2 := by
        rw [← hlimg]
        exact step_publish_sound decode l ia hpub
      constructor
      · intro l' hl'
        rw [on_image_loaded_loaders] at hl'
        dsimp only at hl'
        rcases List.mem_cons.mp hl' with hl' | hl'
        · rw [on_image_loaded_images]
          rw [hl', step_loader_images, hlimg]
        · rw [on_image_loaded_images]
          exact h.1 l' (by rw [hls]; exact List.mem_cons_of_mem _ hl')
      · intro p hp
        rw [on_image_loaded_cache] at hp
        rw [on_image_loaded_images]
        unfold dictPut at hp
        split at hp
        · rw [List.mem_map] at hp
          obtain ⟨q, hq, hqe⟩ := hp
          split at hqe
          · rw [← hqe]
            exact hsound
          · rw [← hqe]
            exact h.2 q hq
        · rcases List.mem_append.mp hp with hp | hp
          · exact h.2 p hp
          · have : p = (ia.1, ia.2) := by simpa using hp
            rw [this]
            exact hsound

lemma inv_init (decode : String → Option Asset) (images : List String) :
    Inv decode (load_folder decode images) := by
  unfold load_folder
  split
  · exact ⟨fun l hl => by simp [initState] at hl, fun p hp => by simp [initState] at hp⟩
  · apply inv_show
    apply inv_start_preload
    exact ⟨fun l hl => by simp [initState] at hl, fun p hp => by simp [initState] at hp⟩

lemma reachable_inv (decode : String → Option Asset) (images : List String)
    (st : AppState) (h : Reachable decode images st) : Inv decode st := by
  induction h with
  | init => exact inv_init decode images
  | step _ hs ih =>
    cases hs with
    | label o => exact inv_label decode _ o ih
    | loader => exact inv_loader_quantum decode _ ih

end OrientApp

namespace OrientApp

@[simp] lemma start_preload_displayed2 (st : AppState) (i : Nat) :
    (start_preload st i).displayed = st.displayed := rfl

lemma maybePreload_displayed (st : AppState) :
    (maybePreload st).displayed = st.displayed := by
  unfold maybePreload
  split <;> rfl

lemma presentStep_displayed_miss_fail (decode : String → Option Asset)
    (st : AppState)
    (h2 : st.cache.find? (fun p => p.1 == st.current_index) = none)
    (h3 : decode (st.images.getD st.current_index noName) = none) :
    (presentStep decode st).displayed = some DisplayVal.nullPix := by
  unfold presentStep
  rw [h2, h3]

lemma show_fallback (decode : String → Option Asset) (st : AppState)
    (h1 : st.current_index < st.images.length)
    (h2 : st.cache.find? (fun p => p.1 == st.current_index) = none)
    (h3 : decode (st.images.getD st.current_index noName) = none) :
    (show_current_image decode st).displayed = some DisplayVal.nullPix := by
  rw [show_eq_present decode st h1, cleanup_cache_displayed, maybePreload_displayed]
  exact presentStep_displayed_miss_fail decode _ (by simpa using h2) (by simpa using h3)

lemma loader_skip_on_failure (decode : String → Option Asset) (l : Loader)
    (h1 : l.status = LoaderStatus.Running) (h2 : l.running = true)
    (h3 : l.next < l.endIndex)
    (h4 : decode (l.images.getD l.next noName) = none) :
    Loader.step decode l = ({ l with next := l.next + 1 }, none) := by
  unfold Loader.step
  rw [if_neg (by simp [h1]), if_neg (Nat.not_le.mpr h3), if_neg (by simp [h2]), h4]

lemma reachable_no_failed_key (decode : String → Option Asset)
    (images : List String) (st : AppState) (h : Reachable decode images st)
    (i : Nat) (hfail : decode (st.images.getD i noName) = none) :
    st.cache.find? (fun p => p.1 == i) = none := by
  have hinv := reachable_inv decode images st h
  cases hfind : st.cache.find? (fun p => p.1 == i) with
  | none => rfl
  | some p =>
    exfalso
    have hp := List.mem_of_find?_eq_some hfind
    have hpi : p.1 = i := by
      have := List.find?_some hfind
      simpa using this
    have := hinv.2 p hp
    rw [hpi, hfail] at this
    simp at this

end OrientApp

namespace OrientApp

/-- C6: Decode-failure handling: (i) in every reachable state, an index
whose decode fails is absent from the Cache — the Loader never published it;
(ii) on a cache miss whose synchronous re-decode also fails, the Consumer
presents the null-pixmap placeholder instead of raising; (iii) the Loader
skips a failing index — one quantum advances `next` by 1, publishes nothing
and stays `Running`; (iv) Scenario B concretely: with decoding of item "3"
failing, the prefetched cache holds keys [0,1,2,4] only, the cursor-3
presentation shows the placeholder, the session still completes (output
written), and key 3 is never in the Cache. -/
theorem c6_decode_failure :
    (∀ (decode : String → Option Asset) (images : List String) (st : AppState),
        Reachable decode images st →
        ∀ i : Nat, decode (st.images.getD i noName) = none →
          st.cache.find? (fun p => p.1 == i) = none) ∧
    (∀ (decode : String → Option Asset) (st : AppState),
        st.current_index < st.images.length →
        st.cache.find? (fun p => p.1 == st.current_index) = none →
        decode (st.images.getD st.current_index noName) = none →
        (show_current_image decode st).displayed = some DisplayVal.nullPix) ∧
    (∀ (decode : String → Option Asset) (l : Loader),
        l.status = LoaderStatus.Running → l.running = true →
        l.next < l.endIndex →
        decode (l.images.getD l.next noName) = none →
        Loader.step decode l = ({ l with next := l.next + 1 }, none)) ∧
    ((loaderStepsN decodeSkip3 6 (load_folder decodeSkip3 (imagesN 5))).cache.map
        Prod.fst = [0, 1, 2, 4] ∧
     (runLabels decodeSkip3
        (loaderStepsN decodeSkip3 6 (load_folder decodeSkip3 (imagesN 5)))
        (List.replicate 3 Orientation.portrait)).displayed
        = some DisplayVal.nullPix ∧
     (runLabels decodeSkip3
        (loaderStepsN decodeSkip3 6 (load_folder decodeSkip3 (imagesN 5)))
        (List.replicate 5 Orientation.portrait)).output.isSome = true ∧
     (runLabels decodeSkip3
        (loaderStepsN decodeSkip3 6 (load_folder decodeSkip3 (imagesN 5)))
        (List.replicate 5 Orientation.portrait)).cache.any (fun p => p.1 == 3)
        = false) := by
  refine ⟨?_, ?_, ?_, ?_, ?_, ?_, ?_⟩
  · intro decode images st h i hfail
    exact reachable_no_failed_key decode images st h i hfail
  · intro decode st h1 h2 h3
    exact show_fallback decode st h1 h2 h3
  · intro decode l h1 h2 h3 h4
    exact loader_skip_on_failure decode l h1 h2 h3 h4
  · decide
  · decide
  · decide
  · decide

/-- C6 witness: in the initial state of a session whose decoder always
fails, index 0 is not in the Cache. -/
theorem c6_decode_failure_witness :
    (load_folder decodeNone (imagesN 1)).cache.find? (fun p => p.1 == 0) = none :=
  c6_decode_failure.1 decodeNone (imagesN 1) _ Reachable.init 0 (by decide)

end OrientApp

namespace OrientApp

@[simp] lemma update_progress_events (st : AppState) :
    (update_progress st).events = st.events ++ [Event.progressEv] := rfl

@[simp] lemma cleanup_cache_events (st : AppState) :
    (cleanup_cache st).events = st.events ++ [Event.evictEv] := rfl

lemma countAtOrAfter_filter_evict (c : List (Nat × Asset)) (i : Nat) :
    countAtOrAfter (c.filter (fun p => !(decide (p.1 + EVICT_MARGIN < i)))) i
      = countAtOrAfter c i := by
  unfold countAtOrAfter
  rw [List.filter_filter]
  apply congrArg List.length
  apply List.filter_congr
  intro p hp
  by_cases h : i ≤ p.1
  · have hnot : ¬ (p.1 + EVICT_MARGIN < i) :=
      Nat.not_lt.mpr (Nat.le_trans h (Nat.le_add_right _ _))
    simp [h, hnot]
  · simp [h]

lemma on_image_loaded_progress (st : AppState) (i : Nat) (a : Asset) :
    (on_image_loaded st i a).progress
      = some (st.current_index + 1, st.images.length,
          countAtOrAfter (dictPut st.cache i a) st.current_index) := by
  unfold on_image_loaded
  dsimp only
  split <;> rfl

lemma on_image_loaded_events (st : AppState) (i : Nat) (a : Asset) :
    (on_image_loaded st i a).events
      = st.events ++ [Event.putEv i, Event.progressEv] := by
  unfold on_image_loaded
  dsimp only
  split <;> simp

lemma show_progress_consistent (decode : String → Option Asset) (st : AppState)
    (h : st.current_index < st.images.length) :
    (show_current_image decode st).progress
      = some (st.current_index + 1, st.images.length,
          countAtOrAfter (show_current_image decode st).cache st.current_index) := by
  rw [show_eq_present decode st h]
  simp only [cleanup_cache_progress, maybePreload_progress, presentStep_progress,
    update_progress_progress, cleanup_cache_cache, maybePreload_cache,
    presentStep_cache, update_progress_cache, maybePreload_current_index,
    presentStep_current_index, update_progress_current_index]
  rw [countAtOrAfter_filter_evict]

/-- C9 counterexample: in a concrete 8-image session (fully prefetched,
then 6 labels), the 6th advance's eviction pass removes key 0 — a real
cache mutation — yet the event log of the advance ends with the eviction:
the progress surface was recomputed before the pass (events suffix
`[progressEv, evictEv]`) and never after it. -/
theorem c9_counterexample :
    (stC9pre.cache.any (fun p => p.1 == 0)) = true ∧
    ((label_image decodeAll stC9pre Orientation.portrait).cache.any
        (fun p => p.1 == 0)) = false ∧
    ((label_image decodeAll stC9pre Orientation.portrait).events.drop
        stC9pre.events.length) = [Event.progressEv, Event.evictEv] ∧
    (label_image decodeAll stC9pre Orientation.portrait).events.getLast?
      = some Event.evictEv := by
  refine ⟨?_, ?_, ?_, ?_⟩ <;> decide

/-- C9 (amended): the progress surface
`(cursor+1, N, count_at_or_after cursor)` is recomputed after every put into
the Cache (`on_image_loaded` puts, then immediately recomputes); the
eviction pass is NOT followed by a recomputation, but it cannot change the
reported count — it removes only indices `< cursor − 5` while the count only
looks at indices `≥ cursor` — so after every presentation the stored surface
still equals the value recomputed from the post-eviction Cache. -/
theorem c9_progress_reporting :
    (∀ (st : AppState) (i : Nat) (a : Asset),
        (on_image_loaded st i a).progress
          = some (st.current_index + 1, st.images.length,
              countAtOrAfter (dictPut st.cache i a) st.current_index) ∧
        (on_image_loaded st i a).events
          = st.events ++ [Event.putEv i, Event.progressEv]) ∧
    (∀ st : AppState,
        (cleanup_cache st).progress = st.progress ∧
        (cleanup_cache st).events = st.events ++ [Event.evictEv] ∧
        countAtOrAfter (cleanup_cache st).cache st.current_index
          = countAtOrAfter st.cache st.current_index) ∧
    (∀ (decode : String → Option Asset) (st : AppState),
        st.current_index < st.images.length →
        (show_current_image decode st).progress
          = some (st.current_index + 1, st.images.length,
              countAtOrAfter (show_current_image decode st).cache
                st.current_index)) := by
  refine ⟨?_, ?_, ?_⟩
  · intro st i a
    exact ⟨on_image_loaded_progress st i a, on_image_loaded_events st i a⟩
  · intro st
    refine ⟨cleanup_cache_progress st, cleanup_cache_events st, ?_⟩
    rw [cleanup_cache_cache]
    exact countAtOrAfter_filter_evict st.cache st.current_index
  · intro decode st h
    exact show_progress_consistent decode st h

/-- C9 witness: the consistency of the stored progress surface with the
post-eviction cache, on a concrete presentation. -/
theorem c9_progress_reporting_witness :
    (show_current_image decodeAll (initState (imagesN 2))).progress
      = some ((initState (imagesN 2)).current_index + 1,
          (initState (imagesN 2)).images.length,
          countAtOrAfter
            (show_current_image decodeAll (initState (imagesN 2))).cache
            (initState (imagesN 2)).current_index) :=
  c9_progress_reporting.2.2 decodeAll (initState (imagesN 2)) (by decide)

end OrientApp
